import Mathlib

/-!
Verification development for the zine static-site generator core
(`src/entity/mod.rs`): the Entity composition protocol (`parse` / `render`)
over the publication tree (Zine, Theme, Season, Article, Page) and the
generic ordered-collection adapter (`impl<T: Entity> Entity for Vec<T>`).

The filesystem is modelled as a finite tree of named entries; paths are
lists of segments (a Rust `FsPath::join` appends the segments of the joined
string).  External collaborators (the Markdown converter, the TOML
deserializer for a season's metadata file, the render sink and the page
slug derivation) are bundled in a `Collab` record of pure functions; the
parse/render functions below are otherwise direct translations of the
Rust source, with `Result` becoming `Except Err` and render-sink side
effects becoming an explicit trace of sink calls.
-/

/-- A filesystem path, as its list of segments. -/
abbrev FsPath := List String

/-- Split a character list on `/`, accumulating the current (reversed)
segment. -/
def splitSegsAux (cs : List Char) (cur : List Char) : List String :=
  match cs with
  | [] => [String.mk cur.reverse]
  | c :: rest =>
    if c = '/' then String.mk cur.reverse :: splitSegsAux rest []
    else splitSegsAux rest (c :: cur)

/-- Rust `FsPath::join` with a string argument: the string's `/`-separated
segments are appended to the base path.  -/
def strPath (s : String) : FsPath :=
  splitSegsAux s.data []

/-- A filesystem: either a regular file with string contents, or a
directory with a list of named entries (walk order is entry order). -/
inductive FsTree where
  | file (content : String)
  | dir (entries : List (String × FsTree))

/-- First entry with the given name, as filesystems resolve names. -/
def lookupEntry (es : List (String × FsTree)) (n : String) : Option FsTree :=
  match es with
  | [] => none
  | (m, t) :: rest => if m = n then some t else lookupEntry rest n

/-- Resolve a path inside a filesystem tree. -/
def FsTree.lookup (t : FsTree) (p : FsPath) : Option FsTree :=
  match p with
  | [] => some t
  | n :: rest =>
    match t with
    | .file _ => none
    | .dir es =>
      match lookupEntry es n with
      | none => none
      | some t2 => t2.lookup rest

/-- Errors of the single error channel (anyhow::Result in the source;
`?` propagates the underlying error unchanged). -/
inductive Err where
  | notFound (p : FsPath)
  | notAFile (p : FsPath)
  | deser (msg : String)
  | walkErr (p : FsPath)
  | stripErr (pre p : FsPath)
  | sinkErr (template : String)
deriving DecidableEq

/-- `std::fs::read_to_string`: contents of the regular file at `p`. -/
def fsRead (fs : FsTree) (p : FsPath) : Except Err String :=
  match fs.lookup p with
  | some (.file c) => .ok c
  | some (.dir _) => .error (.notAFile p)
  | none => .error (.notFound p)

/-- `FsPath::strip_prefix`: removes `pre` from the front of `p`; errors when
`pre` is not a prefix of `p`. -/
def stripPrefixOf (pre p : FsPath) : Except Err FsPath :=
  if pre.isPrefixOf p then .ok (p.drop pre.length) else .error (.stripErr pre p)

mutual
/-- `walkdir::WalkDir` traversal of a tree rooted at path `p`: yields every
entry (depth first, a directory before its contents) together with a flag
telling whether the entry is a regular file. -/
def walkTree (t : FsTree) (p : FsPath) : List (FsPath × Bool) :=
  match t with
  | .file _ => [(p, true)]
  | .dir es => (p, false) :: walkList es p

/-- Walk of a directory's entry list, in entry order. -/
def walkList (es : List (String × FsTree)) (p : FsPath) : List (FsPath × Bool) :=
  match es with
  | [] => []
  | (n, t) :: rest => walkTree t (p ++ [n]) ++ walkList rest p
end

/-- Iterating `WalkDir::new(root)`: when the root does not exist the
iterator yields a single error entry; otherwise it yields the walk of the
subtree found at the root. -/
def walkEntries (fs : FsTree) (root : FsPath) : List (Except Err (FsPath × Bool)) :=
  match fs.lookup root with
  | none => [.error (.walkErr root)]
  | some t => (walkTree t root).map .ok

/-- Modelled from the spec: the fixed, crate-level metadata filename
constant `ZINE_FILE` (declared outside `src/entity/mod.rs`); its exact
value is irrelevant to every claim. -/
def ZINE_FILE : String := "zine.toml"

/-- Site metadata, opaque to the core. -/
structure Site where
  raw : String
deriving DecidableEq

/-- Theme: configuration plus the optional footer-template field, which
holds a path before parse and the referenced file's contents after. -/
structure Theme where
  footer_template : Option String
deriving DecidableEq

/-- Article: a `file` reference relative to its season's directory, and
the `html` field populated by parse. -/
structure Article where
  file : String
  html : String
deriving DecidableEq

/-- Season: number (sort key), slug (output path segment), path (source
subdirectory relative to the content root) and its owned articles. -/
structure Season where
  number : Nat
  slug : String
  path : String
  articles : List Article
deriving DecidableEq

/-- Page: html produced from a discovered file under `pages/`, and the
file's path relative to the pages root. -/
structure Page where
  html : String
  file_path : FsPath
deriving DecidableEq

/-- The root publication. -/
structure Zine where
  theme : Theme
  site : Site
  seasons : List Season
  pages : List Page
deriving DecidableEq

/-- A value bound in a template context (tera serializes the bound data;
we keep it structured). -/
inductive Value where
  | vTheme (t : Theme)
  | vSite (s : Site)
  | vSeason (s : Season)
  | vSeasons (l : List Season)
  | vArticle (a : Article)
  | vStr (s : String)
deriving DecidableEq

/-- A template context: bindings, most recent first (tera's
`Context::insert` overwrites; lookup of a key takes the latest binding). -/
abbrev Context := List (String × Value)

/-- `tera::Context::insert`. -/
def Context.insert (c : Context) (k : String) (v : Value) : Context :=
  (k, v) :: c

/-- One invocation of the render sink: template name, context and
destination directory. -/
structure SinkCall where
  template : String
  context : Context
  dest : FsPath
deriving DecidableEq

/-- An article declaration as deserialized from a season's metadata file:
a file reference plus article-level metadata.  Modelled from the spec:
the `SeasonFile` schema declares a list of article entries, and a
deserialized Article's `html` field is initially empty (the Article
struct's serde derivation lives outside `src/entity/mod.rs`). -/
structure ArticleDecl where
  file : String
deriving DecidableEq

/-- The Article a declaration deserializes to: its `html` starts empty. -/
def declArticle (d : ArticleDecl) : Article :=
  { file := d.file, html := "" }

/-- External collaborators, as pure functions. -/
structure Collab where
  /-- `pulldown_cmark` Markdown-to-HTML conversion with `Options::all()`
  (all extensions enabled); `html::push_html` appends its output, which
  the call sites below make explicit. -/
  markdown : String → String
  /-- Modelled from the spec: `toml::from_str::<SeasonFile>` — the
  metadata file's schema declares only a list of article entries. -/
  tomlSeason : String → Except Err (List ArticleDecl)
  /-- Modelled from the spec: the render sink `crate::zine::Render::render`
  (not under `src/`): takes a template name, a context and a destination;
  `none` means success. -/
  sink : String → Context → FsPath → Option Err
  /-- Modelled from the spec: `Page::slug` (not under `src/`) — a
  deterministic slug derived from the page's relative file path. -/
  pageSlug : FsPath → String

/-- `impl<T: Entity> Entity for Vec<T>`, `parse`: members in order,
first failure propagated, remaining members abandoned. -/
def listParse {α : Type} (f : α → Except Err α) (l : List α) : Except Err (List α) :=
  match l with
  | [] => .ok []
  | x :: xs =>
    match f x with
    | .error e => .error e
    | .ok x2 =>
      match listParse f xs with
      | .error e => .error e
      | .ok xs2 => .ok (x2 :: xs2)

/-- `impl<T: Entity> Entity for Vec<T>`, `render`: members in order, each
receiving `render.clone()` — an independent copy of the incoming context —
short-circuiting on first failure; the trace of sink calls made so far is
kept. -/
def listRender {α : Type} (f : α → Context → FsPath → List SinkCall × Option Err)
    (l : List α) (ctx : Context) (dest : FsPath) : List SinkCall × Option Err :=
  match l with
  | [] => ([], none)
  | x :: xs =>
    match f x ctx dest with
    | (calls, some e) => (calls, some e)
    | (calls, none) =>
      match listRender f xs ctx dest with
      | (calls2, r) => (calls ++ calls2, r)

/-- `impl Entity for Theme`, `parse`: when the footer-template field holds
a path, overwrite it with the contents of the referenced file, resolved
against the content root; when absent, do nothing. -/
def Theme.parse (fs : FsTree) (t : Theme) (source : FsPath) : Except Err Theme :=
  match t.footer_template with
  | none => .ok t
  | some ft =>
    match fsRead fs (source ++ strPath ft) with
    | .error e => .error e
    | .ok content => .ok { t with footer_template := some content }

/-- `impl Entity for Article`, `parse`: read `file` relative to the given
source root (the season's directory), convert it as Markdown, and
`push_html` the result onto `html` (an append). -/
def Article.parse (C : Collab) (fs : FsTree) (a : Article) (source : FsPath) : Except Err Article :=
  match fsRead fs (source ++ strPath a.file) with
  | .error e => .error e
  | .ok markdown => .ok { a with html := a.html ++ C.markdown markdown }

/-- `impl Entity for Article`, `render`: bind `article`, invoke the sink
with `article.jinja` at the given destination. -/
def Article.render (C : Collab) (a : Article) (ctx : Context) (dest : FsPath) :
    List SinkCall × Option Err :=
  let ctx2 := ctx.insert "article" (.vArticle a)
  ([{ template := "article.jinja", context := ctx2, dest := dest }],
    C.sink "article.jinja" ctx2 dest)

/-- `impl Entity for Season`, `parse`: read and deserialize
`<content_root>/<season.path>/<ZINE_FILE>`; the declared article list
replaces the season's articles; then parse the articles with the season's
directory as source root. -/
def Season.parse (C : Collab) (fs : FsTree) (s : Season) (source : FsPath) : Except Err Season :=
  let dir := source ++ strPath s.path
  match fsRead fs (dir ++ [ZINE_FILE]) with
  | .error e => .error e
  | .ok content =>
    match C.tomlSeason content with
    | .error e => .error e
    | .ok decls =>
      match listParse (fun a => Article.parse C fs a dir) (decls.map declArticle) with
      | .error e => .error e
      | .ok articles => .ok { s with articles := articles }

/-- `impl Entity for Season`, `render`: bind `season`, invoke the sink
with `season.jinja` at the destination joined with the season's slug. -/
def Season.render (C : Collab) (s : Season) (ctx : Context) (dest : FsPath) :
    List SinkCall × Option Err :=
  let ctx2 := ctx.insert "season" (.vSeason s)
  let d := dest ++ strPath s.slug
  ([{ template := "season.jinja", context := ctx2, dest := d }],
    C.sink "season.jinja" ctx2 d)

/-- `impl Entity for Page`, `render`: bind `content` (the page's html),
invoke the sink with `page.jinja` at the destination joined with the
page's slug. -/
def Page.render (C : Collab) (p : Page) (ctx : Context) (dest : FsPath) :
    List SinkCall × Option Err :=
  let ctx2 := ctx.insert "content" (.vStr p.html)
  let d := dest ++ strPath (C.pageSlug p.file_path)
  ([{ template := "page.jinja", context := ctx2, dest := d }],
    C.sink "page.jinja" ctx2 d)

/-- Rust `slice::sort_unstable_by_key(|s| s.number)`.  Its contract only
promises a permutation ordered by the key; the relative order of seasons
with equal `number` is unspecified ("may reorder equal elements").  The
embedding fixes one contract-compliant executable order — an insertion
sort by key, which coincides with the std implementation on small slices. -/
def insertByNumber (s : Season) (l : List Season) : List Season :=
  match l with
  | [] => [s]
  | t :: ts => if s.number ≤ t.number then s :: t :: ts else t :: insertByNumber s ts

/-- See `insertByNumber`. -/
def sortByNumber (l : List Season) : List Season :=
  match l with
  | [] => []
  | s :: rest => insertByNumber s (sortByNumber rest)

/-- The page-collection loop inside `Zine::parse`: for each walk entry,
propagate an error entry; for a regular file, read it, convert the full
text as Markdown, strip the pages-root prefix from its path and append a
Page; skip non-file entries. -/
def collectPages (C : Collab) (fs : FsTree) (pagesRoot : FsPath)
    (entries : List (Except Err (FsPath × Bool))) : Except Err (List Page) :=
  match entries with
  | [] => .ok []
  | .error e :: _ => .error e
  | .ok (p, isf) :: rest =>
    if isf then
      match fsRead fs p with
      | .error e => .error e
      | .ok markdown =>
        match stripPrefixOf pagesRoot p with
        | .error e => .error e
        | .ok rel =>
          match collectPages C fs pagesRoot rest with
          | .error e => .error e
          | .ok ps => .ok ({ html := C.markdown markdown, file_path := rel } :: ps)
    else collectPages C fs pagesRoot rest

/-- `impl Entity for Zine`, `parse`: parse the theme, parse the seasons,
sort the seasons by `number`, then walk `<source>/pages` and push a Page
for every regular file found. -/
def Zine.parse (C : Collab) (fs : FsTree) (z : Zine) (source : FsPath) : Except Err Zine :=
  match Theme.parse fs z.theme source with
  | .error e => .error e
  | .ok theme =>
    match listParse (fun s => Season.parse C fs s source) z.seasons with
    | .error e => .error e
    | .ok seasons =>
      match collectPages C fs (source ++ ["pages"]) (walkEntries fs (source ++ ["pages"])) with
      | .error e => .error e
      | .ok newPages =>
        .ok { z with theme := theme, seasons := sortByNumber seasons,
                     pages := z.pages ++ newPages }

/-- `impl Entity for Zine`, `render`: bind `theme` and `site`; render the
seasons with a cloned context at the caller's destination; render the
pages with a cloned context at the destination joined with `page`; then
bind `seasons` and invoke the sink once with `index.jinja` at the
publication's own destination root. -/
def Zine.render (C : Collab) (z : Zine) (ctx : Context) (dest : FsPath) :
    List SinkCall × Option Err :=
  let ctx1 := (ctx.insert "theme" (.vTheme z.theme)).insert "site" (.vSite z.site)
  match listRender (Season.render C) z.seasons ctx1 dest with
  | (c1, some e) => (c1, some e)
  | (c1, none) =>
    match listRender (Page.render C) z.pages ctx1 (dest ++ ["page"]) with
    | (c2, some e) => (c1 ++ c2, some e)
    | (c2, none) =>
      let ctx2 := ctx1.insert "seasons" (.vSeasons z.seasons)
      (c1 ++ c2 ++ [{ template := "index.jinja", context := ctx2, dest := dest }],
        C.sink "index.jinja" ctx2 dest)

/-! ## Helper lemmas and concrete witness data -/

/-- Appending to the empty string is the identity. -/
theorem string_empty_append (s : String) : "" ++ s = s := by
  cases s
  rfl

/-- A string equal to itself appended to itself is empty. -/
theorem string_append_self (s : String) (h : s ++ s = s) : s = "" := by
  cases s with
  | mk data =>
    have hd : data ++ data = data := congrArg String.data h
    have hlen : data.length + data.length = data.length := by
      simpa using congrArg List.length hd
    have h0 : data.length = 0 := by omega
    have : data = [] := List.length_eq_zero.mp h0
    simp [this]

/-- `listParse` over a mapped list succeeds pointwise. -/
theorem listParse_map_ok {α β : Type} (f : α → Except Err α) (g g2 : β → α)
    (l : List β) (h : ∀ d ∈ l, f (g d) = .ok (g2 d)) :
    listParse f (l.map g) = .ok (l.map g2) := by
  induction l with
  | nil => rfl
  | cons d rest ih =>
    have h1 := h d (List.mem_cons_self d rest)
    have h2 : ∀ x ∈ rest, f (g x) = .ok (g2 x) :=
      fun x hx => h x (List.mem_cons_of_mem d hx)
    simp [listParse, h1, ih h2]

/-- A concrete filesystem used by the witness theorems. -/
def fsW : FsTree :=
  .dir [
    ("s1", .dir [(ZINE_FILE, .file "meta"), ("a.md", .file "# Hi")]),
    ("pages", .dir [("foo", .dir [("bar.md", .file "# Pg")])]),
    ("f.html", .file "FOOT")]

/-- Concrete collaborators used by the witness theorems. -/
def CW : Collab where
  markdown := fun s => if s = "# Hi" then "<h1>Hi</h1>\n" else "<p>" ++ s ++ "</p>\n"
  tomlSeason := fun c => if c = "meta" then .ok [{ file := "a.md" }] else .error (.deser c)
  sink := fun _ _ _ => none
  pageSlug := fun _ => "p"

/-! ## Claims -/

/-- C7: `Theme::parse` round-trips the footer field without
transformation: when the footer-template field holds a path naming a file
with contents `T`, after parse the field holds exactly `T`; when the
field is absent, parse is a no-op on the Theme and succeeds. -/
theorem c7_theme_footer_roundtrip (fs : FsTree) (t : Theme) (source : FsPath) :
    (t.footer_template = none → Theme.parse fs t source = .ok t)
    ∧ (∀ p T, t.footer_template = some p →
        fsRead fs (source ++ strPath p) = .ok T →
        Theme.parse fs t source = .ok { t with footer_template := some T }) := by
  constructor
  · intro h
    simp [Theme.parse, h]
  · intro p T hp hT
    simp [Theme.parse, hp, hT]

/-- C7 witness: footer file `f.html` containing `FOOT` round-trips; an
absent footer field is a no-op. -/
theorem c7_theme_footer_roundtrip_witness :
    Theme.parse fsW { footer_template := some "f.html" } [] = .ok { footer_template := some "FOOT" }
    ∧ Theme.parse fsW { footer_template := none } [] = .ok { footer_template := none } :=
  ⟨(c7_theme_footer_roundtrip fsW { footer_template := some "f.html" } []).2 "f.html" "FOOT" rfl rfl,
   (c7_theme_footer_roundtrip fsW { footer_template := none } []).1 rfl⟩

/-- C9: `Article::parse` appends rather than replaces: the post-parse
`html` is the pre-parse `html` concatenated with the Markdown conversion
of the referenced file; parsing twice from an empty `html` yields the
conversion repeated twice, so parse is not idempotent whenever the
conversion is non-empty. -/
theorem c9_article_parse_appends (C : Collab) (fs : FsTree) (a : Article)
    (source : FsPath) (md : String)
    (hread : fsRead fs (source ++ strPath a.file) = .ok md) :
    Article.parse C fs a source = .ok { a with html := a.html ++ C.markdown md }
    ∧ (a.html = "" →
        (Article.parse C fs a source).bind (fun a2 => Article.parse C fs a2 source)
          = .ok { a with html := C.markdown md ++ C.markdown md })
    ∧ (a.html = "" → C.markdown md ≠ "" →
        (Article.parse C fs a source).bind (fun a2 => Article.parse C fs a2 source)
          ≠ Article.parse C fs a source) := by
  have h1 : Article.parse C fs a source = .ok { a with html := a.html ++ C.markdown md } := by
    simp [Article.parse, hread]
  have h2 : a.html = "" →
      (Article.parse C fs a source).bind (fun a2 => Article.parse C fs a2 source)
        = .ok { a with html := C.markdown md ++ C.markdown md } := by
    intro h0
    rw [h1, h0]
    simp only [Except.bind]
    simp [Article.parse, hread, string_empty_append]
  refine ⟨h1, h2, ?_⟩
  intro h0 hne heq
  rw [h2 h0, h1, h0, string_empty_append] at heq
  have : C.markdown md ++ C.markdown md = C.markdown md := by
    have := Except.ok.inj heq
    exact congrArg Article.html this
  exact hne (string_append_self _ this)

/-- C9 witness: a concrete article parsed once appends the conversion;
parsed twice it holds the conversion twice and differs from one parse. -/
theorem c9_article_parse_appends_witness :
    Article.parse CW fsW { file := "a.md", html := "" } ["s1"]
      = .ok { file := "a.md", html := "" ++ CW.markdown "# Hi" }
    ∧ (Article.parse CW fsW { file := "a.md", html := "" } ["s1"]).bind
        (fun a2 => Article.parse CW fsW a2 ["s1"])
      = .ok { file := "a.md", html := CW.markdown "# Hi" ++ CW.markdown "# Hi" }
    ∧ (Article.parse CW fsW { file := "a.md", html := "" } ["s1"]).bind
        (fun a2 => Article.parse CW fsW a2 ["s1"])
      ≠ Article.parse CW fsW { file := "a.md", html := "" } ["s1"] := by
  have h := c9_article_parse_appends CW fsW { file := "a.md", html := "" } ["s1"] "# Hi" rfl
  exact ⟨h.1, h.2.1 rfl, h.2.2 rfl (by decide)⟩

/-- C1: for a season whose metadata file exists and deserializes to a
list of article declarations, `Season::parse` replaces the article
collection with exactly that list and parses each article against the
season's directory, so each article's `html` is the Markdown conversion
of the file named by its `file` field. -/
theorem c1_season_parse_declared_articles (C : Collab) (fs : FsTree) (s : Season)
    (source : FsPath) (content : String) (decls : List ArticleDecl)
    (contents : ArticleDecl → String)
    (hmeta : fsRead fs ((source ++ strPath s.path) ++ [ZINE_FILE]) = .ok content)
    (htoml : C.tomlSeason content = .ok decls)
    (hfiles : ∀ d ∈ decls,
      fsRead fs ((source ++ strPath s.path) ++ strPath d.file) = .ok (contents d)) :
    Season.parse C fs s source
      = .ok { s with
          articles := decls.map (fun d => { file := d.file, html := C.markdown (contents d) }) } := by
  have harts : listParse (fun a => Article.parse C fs a (source ++ strPath s.path))
      (decls.map declArticle)
      = .ok (decls.map fun d => { file := d.file, html := C.markdown (contents d) }) := by
    apply listParse_map_ok
    intro d hd
    have hf := hfiles d hd
    rw [List.append_assoc] at hf
    simp [declArticle, Article.parse, hf, string_empty_append]
  rw [List.append_assoc] at hmeta
  simp [Season.parse, hmeta, htoml, harts]

/-- C1 witness: metadata declaring one article `{file: "a.md"}` where
`a.md` contains `# Hi`; after parse that article's `html` is
`<h1>Hi</h1>\n`. -/
theorem c1_season_parse_declared_articles_witness :
    Season.parse CW fsW { number := 1, slug := "s", path := "s1", articles := [] } []
      = .ok { number := 1, slug := "s", path := "s1",
              articles := [{ file := "a.md", html := "<h1>Hi</h1>\n" }] } := by
  have h := c1_season_parse_declared_articles CW fsW
    { number := 1, slug := "s", path := "s1", articles := [] } [] "meta"
    [{ file := "a.md" }] (fun _ => "# Hi") rfl rfl
    (by
      intro d hd
      have hde := List.mem_singleton.mp hd
      subst hde
      rfl)
  exact h

/-- `listParse` on a list whose first members succeed and whose next
member fails returns exactly that member's error, whatever follows. -/
theorem listParse_ok_append_error {α : Type} (f : α → Except Err α) {x : α} {e : Err}
    (hx : f x = .error e) :
    ∀ (l1 l2 : List α) (r1 : List α), listParse f l1 = .ok r1 →
      listParse f (l1 ++ x :: l2) = .error e := by
  intro l1
  induction l1 with
  | nil =>
    intro l2 r1 h1
    simp [listParse, hx]
  | cons y ys ih =>
    intro l2 r1 h1
    simp only [listParse] at h1
    cases hy : f y with
    | error e2 =>
      simp [hy] at h1
    | ok y2 =>
      simp only [hy] at h1
      cases hys : listParse f ys with
      | error e2 =>
        simp [hys] at h1
      | ok ys2 =>
        simp [listParse, hy, ih l2 ys2 hys]

/-- C3: parse is fail-fast with unchanged propagation — when the article
declared after `dpre` in a season's metadata fails to parse (its file is
absent), that very error is the result of the article-collection parse,
of `Season::parse`, and of the publication-level `Zine::parse`, for every
choice of the declarations (`dpost`) and seasons (`post`) that follow the
failing member (so they are never parsed and nothing transforms the
error). -/
theorem c3_failfast_error_propagation
    (C : Collab) (fs : FsTree) (z : Zine) (source : FsPath)
    (th2 : Theme) (pre post : List Season) (s : Season) (pre2 : List Season)
    (content : String) (decls : List ArticleDecl) (dpre dpost : List ArticleDecl)
    (d : ArticleDecl) (apre : List Article) (e : Err)
    (htheme : Theme.parse fs z.theme source = .ok th2)
    (hseasons : z.seasons = pre ++ s :: post)
    (hpre : listParse (fun s2 => Season.parse C fs s2 source) pre = .ok pre2)
    (hmeta : fsRead fs ((source ++ strPath s.path) ++ [ZINE_FILE]) = .ok content)
    (htoml : C.tomlSeason content = .ok decls)
    (hdecls : decls = dpre ++ d :: dpost)
    (hdpre : listParse (fun a => Article.parse C fs a (source ++ strPath s.path))
        (dpre.map declArticle) = .ok apre)
    (hfail : fsRead fs ((source ++ strPath s.path) ++ strPath d.file) = .error e) :
    Article.parse C fs (declArticle d) (source ++ strPath s.path) = .error e
    ∧ listParse (fun a => Article.parse C fs a (source ++ strPath s.path))
        (decls.map declArticle) = .error e
    ∧ Season.parse C fs s source = .error e
    ∧ Zine.parse C fs z source = .error e := by
  rw [List.append_assoc] at hmeta hfail
  have hart : Article.parse C fs (declArticle d) (source ++ strPath s.path) = .error e := by
    simp [Article.parse, declArticle, hfail]
  have hlist : listParse (fun a => Article.parse C fs a (source ++ strPath s.path))
      (decls.map declArticle) = .error e := by
    rw [hdecls, List.map_append, List.map_cons]
    exact listParse_ok_append_error _ hart (dpre.map declArticle) (dpost.map declArticle)
      apre hdpre
  have hseason : Season.parse C fs s source = .error e := by
    simp [Season.parse, hmeta, htoml, hlist]
  have hzs : listParse (fun s2 => Season.parse C fs s2 source) z.seasons = .error e := by
    rw [hseasons]
    exact listParse_ok_append_error _ hseason pre post pre2 hpre
  exact ⟨hart, hlist, hseason, by simp [Zine.parse, htheme, hzs]⟩

/-- Collaborators for the C3 witness: the metadata deserializes to one
article whose file does not exist. -/
def CW3 : Collab where
  markdown := fun s => "<p>" ++ s ++ "</p>\n"
  tomlSeason := fun _ => .ok [{ file := "b.md" }]
  sink := fun _ _ _ => none
  pageSlug := fun _ => "p"

/-- C3 witness: with one season declaring one article whose file `b.md`
is absent, the leaf I/O error is the result of the whole `Zine::parse`. -/
theorem c3_failfast_error_propagation_witness :
    Zine.parse CW3 fsW
      { theme := { footer_template := none }, site := { raw := "x" },
        seasons := [{ number := 1, slug := "s", path := "s1", articles := [] }],
        pages := [] } []
      = .error (.notFound ["s1", "b.md"]) :=
  (c3_failfast_error_propagation CW3 fsW
      { theme := { footer_template := none }, site := { raw := "x" },
        seasons := [{ number := 1, slug := "s", path := "s1", articles := [] }],
        pages := [] } []
      { footer_template := none } [] [] { number := 1, slug := "s", path := "s1", articles := [] }
      [] "meta" [{ file := "b.md" }] [] [] { file := "b.md" } []
      (.notFound ["s1", "b.md"])
      rfl rfl rfl rfl rfl rfl rfl rfl).2.2.2

/-- C10: a `pages` directory is mandatory — when
`<content_root>/pages` does not exist, the directory walk yields an error
entry that `Zine::parse` propagates, even though the theme and every
season parsed successfully. -/
theorem c10_pages_dir_mandatory (C : Collab) (fs : FsTree) (z : Zine) (source : FsPath)
    (th2 : Theme) (ss2 : List Season)
    (htheme : Theme.parse fs z.theme source = .ok th2)
    (hseasons : listParse (fun s => Season.parse C fs s source) z.seasons = .ok ss2)
    (hpages : FsTree.lookup fs (source ++ ["pages"]) = none) :
    Zine.parse C fs z source = .error (.walkErr (source ++ ["pages"])) := by
  simp [Zine.parse, htheme, hseasons, walkEntries, hpages, collectPages]

/-- A filesystem with no `pages` directory, for the C10 witness. -/
def fsW10 : FsTree := .dir [("f.html", .file "FOOT")]

/-- C10 witness: theme and the (empty) season list parse, yet
`Zine::parse` fails with the walk error for the missing `pages` root. -/
theorem c10_pages_dir_mandatory_witness :
    Zine.parse CW fsW10
      { theme := { footer_template := none }, site := { raw := "x" },
        seasons := [], pages := [] } []
      = .error (.walkErr ["pages"]) :=
  c10_pages_dir_mandatory CW fsW10
    { theme := { footer_template := none }, site := { raw := "x" },
      seasons := [], pages := [] } []
    { footer_template := none } [] rfl rfl rfl

/-- C4: the ordered-collection `render` passes every member the same
incoming context — an independently cloned copy, so a binding inserted by
one member's render is never visible to another member, and the caller's
context value is untouched — and it short-circuits on the first failing
member: when some member of `l1` fails, the members of `l2` contribute no
sink call; when `l1` succeeds, `l2` is rendered with the original `ctx`. -/
theorem c4_collection_render_isolation {α : Type}
    (f : α → Context → FsPath → List SinkCall × Option Err)
    (l1 l2 : List α) (ctx : Context) (dest : FsPath) :
    listRender f (l1 ++ l2) ctx dest =
      match listRender f l1 ctx dest with
      | (c, some e) => (c, some e)
      | (c, none) => (c ++ (listRender f l2 ctx dest).1, (listRender f l2 ctx dest).2) := by
  induction l1 with
  | nil => simp [listRender]
  | cons x xs ih =>
    simp only [List.cons_append, listRender]
    rcases hfx : f x ctx dest with ⟨calls, r⟩
    cases r with
    | some e => simp
    | none =>
      simp only [List.append_eq]
      rw [ih]
      rcases hxs : listRender f xs ctx dest with ⟨c2, r2⟩
      cases r2 with
      | some e => simp
      | none => simp [List.append_assoc]

/-- `listRender` over members that each emit exactly one successful sink
call is the map of those calls. -/
theorem listRender_map_single {α : Type}
    (f : α → Context → FsPath → List SinkCall × Option Err) (g : α → SinkCall)
    (l : List α) (ctx : Context) (dest : FsPath)
    (h : ∀ x ∈ l, f x ctx dest = ([g x], none)) :
    listRender f l ctx dest = (l.map g, none) := by
  induction l with
  | nil => rfl
  | cons x xs ih =>
    have h1 := h x (List.mem_cons_self x xs)
    have h2 : ∀ y ∈ xs, f y ctx dest = ([g y], none) :=
      fun y hy => h y (List.mem_cons_of_mem x hy)
    simp [listRender, h1, ih h2]


/-- The sink call `Zine::render` makes for one season: `season.jinja`
against the caller's destination joined with the season's slug, with
`theme`, `site` and `season` bound (no `seasons` binding added). -/
def seasonCall (z : Zine) (ctx : Context) (dest : FsPath) (s : Season) : SinkCall where
  template := "season.jinja"
  context := ((ctx.insert "theme" (.vTheme z.theme)).insert "site" (.vSite z.site)).insert "season" (.vSeason s)
  dest := dest ++ strPath s.slug

/-- The sink call `Zine::render` makes for one page: `page.jinja` against
the destination rebased to the `page` subdirectory and joined with the
page's slug, with `theme`, `site` and `content` bound. -/
def pageCall (C : Collab) (z : Zine) (ctx : Context) (dest : FsPath) (p : Page) : SinkCall where
  template := "page.jinja"
  context := ((ctx.insert "theme" (.vTheme z.theme)).insert "site" (.vSite z.site)).insert "content" (.vStr p.html)
  dest := (dest ++ ["page"]) ++ strPath (C.pageSlug p.file_path)

/-- The home-page sink call of `Zine::render`: the fixed template
`index.jinja` against the publication's own destination root, with
`seasons` additionally bound to the zine's whole season list. -/
def homeCall (z : Zine) (ctx : Context) (dest : FsPath) : SinkCall where
  template := "index.jinja"
  context := ((ctx.insert "theme" (.vTheme z.theme)).insert "site" (.vSite z.site)).insert "seasons" (.vSeasons z.seasons)
  dest := dest

/-- The full trace of `Zine::render` when the sink never fails: each
season's call in order, then each page's call, then the single home-page
call, and success. -/
theorem zine_render_calls (C : Collab) (z : Zine) (ctx : Context) (dest : FsPath)
    (hsink : ∀ n c p, C.sink n c p = none) :
    Zine.render C z ctx dest =
      (z.seasons.map (seasonCall z ctx dest)
        ++ z.pages.map (pageCall C z ctx dest)
        ++ [homeCall z ctx dest], none) := by
  have hs := listRender_map_single (Season.render C) (seasonCall z ctx dest)
    z.seasons ((ctx.insert "theme" (.vTheme z.theme)).insert "site" (.vSite z.site)) dest
    (fun s _ => by simp [Season.render, seasonCall, hsink])
  have hp := listRender_map_single (Page.render C) (pageCall C z ctx dest)
    z.pages ((ctx.insert "theme" (.vTheme z.theme)).insert "site" (.vSite z.site))
    (dest ++ ["page"])
    (fun p _ => by simp [Page.render, pageCall, hsink])
  simp [Zine.render, hs, hp, hsink, homeCall]

/-- C5: `Zine::render` produces exactly these sink calls in this order —
every season against the caller's destination with `theme` and `site`
(and the member's own `season`) bound but no `seasons` binding; then
every page against the destination joined with `page`; last one call
with the fixed template `index.jinja` against the publication's own
destination root, whose context additionally binds `seasons` to the
zine's full (post-parse: sorted) season list.  `seasonCall`, `pageCall`
and `homeCall` spell out each call's template, context and destination. -/
theorem c5_zine_render_call_order (C : Collab) (z : Zine) (ctx : Context) (dest : FsPath)
    (hsink : ∀ n c p, C.sink n c p = none) :
    Zine.render C z ctx dest =
      (z.seasons.map (seasonCall z ctx dest)
        ++ z.pages.map (pageCall C z ctx dest)
        ++ [homeCall z ctx dest], none) :=
  zine_render_calls C z ctx dest hsink

/-- A concrete zine for the render witnesses. -/
def zW5 : Zine where
  theme := { footer_template := some "F" }
  site := { raw := "site" }
  seasons := [{ number := 1, slug := "one", path := "s1", articles := [] }]
  pages := [{ html := "H", file_path := ["foo", "bar.md"] }]

/-- C5 witness: the concrete trace of rendering `zW5` from an empty
context — season call, then page call, then the home-page call. -/
theorem c5_zine_render_call_order_witness :
    Zine.render CW zW5 [] ["out"] =
      ([{ template := "season.jinja",
          context := [("season", .vSeason { number := 1, slug := "one", path := "s1", articles := [] }),
            ("site", .vSite { raw := "site" }), ("theme", .vTheme { footer_template := some "F" })],
          dest := ["out", "one"] },
        { template := "page.jinja",
          context := [("content", .vStr "H"),
            ("site", .vSite { raw := "site" }), ("theme", .vTheme { footer_template := some "F" })],
          dest := ["out", "page", "p"] },
        { template := "index.jinja",
          context := [("seasons", .vSeasons [{ number := 1, slug := "one", path := "s1", articles := [] }]),
            ("site", .vSite { raw := "site" }), ("theme", .vTheme { footer_template := some "F" })],
          dest := ["out"] }], none) :=
  (c5_zine_render_call_order CW zW5 [] ["out"] (fun _ _ _ => rfl)).trans (by decide)

/-- C8: render is deterministic over a fixed parsed tree — rendering the
same zine with the same initial context against two destination roots
yields the same sequence of sink invocations (same templates, same
context contents, same destination paths relative to each root), both
succeeding; with a deterministic sink this makes the written output
byte-identical. -/
theorem c8_render_deterministic (C : Collab) (z : Zine) (ctx : Context) (d1 d2 : FsPath)
    (hsink : ∀ n c p, C.sink n c p = none) :
    ((Zine.render C z ctx d1).1.map (fun sc => { sc with dest := sc.dest.drop d1.length }))
      = ((Zine.render C z ctx d2).1.map (fun sc => { sc with dest := sc.dest.drop d2.length }))
    ∧ (Zine.render C z ctx d1).2 = none ∧ (Zine.render C z ctx d2).2 = none := by
  rw [zine_render_calls C z ctx d1 hsink, zine_render_calls C z ctx d2 hsink]
  refine ⟨?_, rfl, rfl⟩
  simp only [List.map_append, List.map_map]
  have e1 : ((fun sc : SinkCall => { sc with dest := sc.dest.drop d1.length })
        ∘ seasonCall z ctx d1)
      = ((fun sc : SinkCall => { sc with dest := sc.dest.drop d2.length })
        ∘ seasonCall z ctx d2) := by
    funext s
    simp [seasonCall, List.drop_left]
  have e2 : ((fun sc : SinkCall => { sc with dest := sc.dest.drop d1.length })
        ∘ pageCall C z ctx d1)
      = ((fun sc : SinkCall => { sc with dest := sc.dest.drop d2.length })
        ∘ pageCall C z ctx d2) := by
    funext p
    simp [pageCall, List.append_assoc, List.drop_left]
  rw [e1, e2]
  simp [homeCall, List.drop_length]

/-- C8 witness: rendering `zW5` against the roots `o1` and `o2` gives
root-relative traces that coincide, both runs succeeding. -/
theorem c8_render_deterministic_witness :
    ((Zine.render CW zW5 [] ["o1"]).1.map (fun sc => { sc with dest := sc.dest.drop 1 }))
      = ((Zine.render CW zW5 [] ["o2"]).1.map (fun sc => { sc with dest := sc.dest.drop 1 }))
    ∧ (Zine.render CW zW5 [] ["o1"]).2 = none ∧ (Zine.render CW zW5 [] ["o2"]).2 = none :=
  c8_render_deterministic CW zW5 [] ["o1"] ["o2"] (fun _ _ _ => rfl)

deriving instance DecidableEq for Except

/-- `collectPages` over error-free walk entries: every regular file whose
read and prefix-strip succeed yields exactly one Page, in entry order;
directory entries are skipped. -/
theorem collectPages_map_ok (C : Collab) (fs : FsTree) (pd : FsPath)
    (entries : List (FsPath × Bool)) (contentF : FsPath → String)
    (h : ∀ e ∈ entries, e.2 = true →
      fsRead fs e.1 = .ok (contentF e.1) ∧ pd.isPrefixOf e.1 = true) :
    collectPages C fs pd (entries.map .ok)
      = .ok (entries.filterMap (fun e =>
          if e.2 then
            some { html := C.markdown (contentF e.1), file_path := e.1.drop pd.length }
          else none)) := by
  induction entries with
  | nil => rfl
  | cons e rest ih =>
    rcases e with ⟨p, isf⟩
    have ihr := ih (fun x hx hf => h x (List.mem_cons_of_mem _ hx) hf)
    cases isf with
    | false =>
      simp [collectPages, ihr]
    | true =>
      obtain ⟨hr, hpfx⟩ := h (p, true) (List.mem_cons_self _ _) rfl
      simp [collectPages, hr, stripPrefixOf, hpfx, ihr]

/-- C6: for every regular file discovered under `<content_root>/pages`,
`Zine::parse` appends exactly one Page, in walk order, whose `file_path`
is the file's path with the pages-root prefix stripped (so it never
contains that prefix) and whose `html` is the Markdown conversion of the
file's full text. -/
theorem c6_pages_discovery (C : Collab) (fs : FsTree) (z : Zine) (source : FsPath)
    (t : FsTree) (th2 : Theme) (ss2 : List Season) (contentF : FsPath → String)
    (htheme : Theme.parse fs z.theme source = .ok th2)
    (hseasons : listParse (fun s => Season.parse C fs s source) z.seasons = .ok ss2)
    (hpd : FsTree.lookup fs (source ++ ["pages"]) = some t)
    (hfiles : ∀ e ∈ walkTree t (source ++ ["pages"]), e.2 = true →
      fsRead fs e.1 = .ok (contentF e.1)
        ∧ (source ++ ["pages"]).isPrefixOf e.1 = true) :
    Zine.parse C fs z source
      = .ok { z with
          theme := th2,
          seasons := sortByNumber ss2,
          pages := z.pages ++ (walkTree t (source ++ ["pages"])).filterMap (fun e =>
            if e.2 then
              some { html := C.markdown (contentF e.1),
                     file_path := e.1.drop (source ++ ["pages"]).length }
            else none) } := by
  have hw : walkEntries fs (source ++ ["pages"])
      = (walkTree t (source ++ ["pages"])).map .ok := by
    simp [walkEntries, hpd]
  have hc := collectPages_map_ok C fs (source ++ ["pages"])
    (walkTree t (source ++ ["pages"])) contentF hfiles
  simp [Zine.parse, htheme, hseasons, hw, hc]

/-- C6 witness: `pages/foo/bar.md` is discovered, yielding exactly one
Page with `file_path = foo/bar.md` (prefix stripped) and the converted
contents. -/
theorem c6_pages_discovery_witness :
    Zine.parse CW fsW
      { theme := { footer_template := none }, site := { raw := "x" },
        seasons := [], pages := [] } []
      = .ok { theme := { footer_template := none }, site := { raw := "x" },
              seasons := [],
              pages := [{ html := "<p># Pg</p>\n", file_path := ["foo", "bar.md"] }] } :=
  (c6_pages_discovery CW fsW
      { theme := { footer_template := none }, site := { raw := "x" },
        seasons := [], pages := [] } []
      (.dir [("foo", .dir [("bar.md", .file "# Pg")])])
      { footer_template := none } [] (fun e => if e = ["pages", "foo", "bar.md"] then "# Pg" else "")
      rfl rfl rfl (by decide)).trans (by decide)

/-- `insertByNumber` is Mathlib's `orderedInsert` under the key order. -/
theorem insertByNumber_eq (s : Season) (l : List Season) :
    insertByNumber s l = List.orderedInsert (fun a b => a.number ≤ b.number) s l := by
  induction l with
  | nil => rfl
  | cons t ts ih =>
    unfold insertByNumber List.orderedInsert
    split <;> simp [ih]

/-- `sortByNumber` is Mathlib's `insertionSort` under the key order. -/
theorem sortByNumber_eq (l : List Season) :
    sortByNumber l = List.insertionSort (fun a b => a.number ≤ b.number) l := by
  induction l with
  | nil => rfl
  | cons s rest ih => simp [sortByNumber, List.insertionSort, ih, insertByNumber_eq]

instance : IsTotal Season (fun a b => a.number ≤ b.number) :=
  ⟨fun a b => Nat.le_total a.number b.number⟩

instance : IsTrans Season (fun a b => a.number ≤ b.number) :=
  ⟨fun _ _ _ => Nat.le_trans⟩

/-- The embedded season sort is ascending by `number`. -/
theorem sortByNumber_sorted (l : List Season) :
    (sortByNumber l).Sorted (fun a b => a.number ≤ b.number) := by
  rw [sortByNumber_eq]
  exact List.sorted_insertionSort _ l

/-- The embedded season sort permutes its input. -/
theorem sortByNumber_perm (l : List Season) : (sortByNumber l).Perm l := by
  rw [sortByNumber_eq]
  exact List.perm_insertionSort _ l

/-- After a successful `Zine::parse` the season sequence is ascending by
`number` (the part of the season-ordering property that
`sort_unstable_by_key` guarantees for every implementation). -/
theorem zine_parse_seasons_sorted (C : Collab) (fs : FsTree) (z : Zine) (source : FsPath)
    (z2 : Zine) (h : Zine.parse C fs z source = .ok z2) :
    z2.seasons.Sorted (fun a b => a.number ≤ b.number) := by
  unfold Zine.parse at h
  split at h
  · exact absurd h (by simp)
  · split at h
    · exact absurd h (by simp)
    · split at h
      · exact absurd h (by simp)
      · have hz := Except.ok.inj h
        rw [← hz]
        exact sortByNumber_sorted _
